import Mathlib

/-!
Verification of the sqs-reader program (src/src/main.rs) against its
specification. The definitions below shallowly embed the program: the
queue client is an explicit collaborator (functions giving the outcome of
each remote call), remote interactions are recorded as an event log, and
every `expect`/`unwrap`/`panic!` in the source is modelled as an aborting
(`none` / `false`) outcome.
-/

/-- One received queue message: the fields of the rusoto `Message` record
used by the program (`message_id`, `body`, `receipt_handle`, `md5_of_body`,
`attributes`), each optional exactly as in the client library. -/
structure Message where
  message_id : Option String
  body : Option String
  receipt_handle : Option String
  md5_of_body : Option String
  attributes : Option (List (String × String))
deriving DecidableEq, Repr

/-- The rusoto `ReceiveMessageRequest` record, with the fields the program
fills in (main.rs lines 104-112). -/
structure ReceiveMessageRequest where
  attribute_names : Option (List String)
  max_number_of_messages : Option Int
  message_attribute_names : Option (List String)
  queue_url : String
  receive_request_attempt_id : Option String
  visibility_timeout : Option Int
  wait_time_seconds : Option Int
deriving DecidableEq, Repr

/-- `Vec::resize(new_len, value)`: truncate or pad with `value` to reach
exactly `new_len` elements. -/
def vecResize (l : List String) (newLen : Nat) (value : String) : List String :=
  if l.length ≤ newLen then l ++ List.replicate (newLen - l.length) value
  else l.take newLen

/-- main.rs lines 101-102:
`let mut attribute_names = vec!("All".to_owned()); attribute_names.resize(1, "All".to_owned())`. -/
def attributeNames : List String := vecResize ["All"] 1 "All"

/-- The visibility-timeout lease requested while draining (the literal `60`
at main.rs line 110). -/
def leaseSeconds : Int := 60

/-- The receive request built at every iteration of the collection loop
(main.rs lines 104-111). -/
def mkReceiveRequest (drain : Bool) (inUrl : String) : ReceiveMessageRequest :=
  { attribute_names := some attributeNames
    max_number_of_messages := some 1
    message_attribute_names := none
    queue_url := inUrl
    receive_request_attempt_id := none
    visibility_timeout := some (if drain then leaseSeconds else 0)
    wait_time_seconds := none }

/-- A line printed to stdout: a bare message body (line 136), the full
record built by `print_full_message` (lines 180-186), or the acknowledgment
record built by `send_message` (lines 201-204). -/
inductive Output where
  | bodyLine (body : String)
  | fullRecord (body receiptHandle md5 id : String) (attrs : List (String × String))
  | sendAck (md5 id : String)
deriving DecidableEq, Repr

/-- An observable action of the program: a remote call to the queue service
or a line printed to stdout. -/
inductive Event where
  | resolveUrl (name : String)
  | getQueueSize (url : String)
  | receiveCall (req : ReceiveMessageRequest)
  | printLine (out : Output)
  | sendCall (url : String) (body : String)
  | deleteCall (url : String) (handle : String)
deriving DecidableEq, Repr

def Event.isSendCall : Event → Bool
  | .sendCall _ _ => true
  | _ => false

def Event.isDeleteCall : Event → Bool
  | .deleteCall _ _ => true
  | _ => false

/-- `FnvHashMap::insert`: replace the stored value when the key is already
present, otherwise add a new entry. The map is represented as an
association list with distinct keys. -/
def mapInsert (acc : List (String × Message)) (id : String) (m : Message) :
    List (String × Message) :=
  if acc.any (fun p => p.1 == id) then
    acc.map (fun p => if p.1 == id then (id, m) else p)
  else acc ++ [(id, m)]

/-- main.rs lines 116-119: insert every received message into the map keyed
by its id; a message without an id aborts the run (`expect("getting id")`). -/
def insertAll (acc : List (String × Message)) :
    List Message → Option (List (String × Message))
  | [] => some acc
  | m :: rest =>
    match m.message_id with
    | none => none
    | some id => insertAll (mapInsert acc id m) rest

/-- Outcome of one `receive_message` call: a transport error (which the
program turns into a panic at line 112), or a response whose `messages`
field is optional. -/
inductive ReceiveResult where
  | clientError
  | response (messages : Option (List Message))
deriving DecidableEq, Repr

/-- Outcome of the collection loop: `finished` (the `while` condition became
false or the non-blocking `break` fired), `aborted` (a panic), or `polling`
(the supplied fuel ran out with the loop still going). Each carries the
events issued so far; `finished`/`aborted` also carry the number of receive
calls made. -/
inductive LoopResult where
  | finished (events : List Event) (collected : List (String × Message)) (calls : Nat)
  | aborted (events : List Event) (calls : Nat)
  | polling (events : List Event) (collected : List (String × Message))
deriving DecidableEq, Repr

def LoopResult.events : LoopResult → List Event
  | .finished evs _ _ => evs
  | .aborted evs _ => evs
  | .polling evs _ => evs

/-- main.rs lines 103-127, the collection loop.  `trace` gives the outcome
of the `calls`-th receive call; `fuel` bounds how many iterations are
unfolded (the Rust loop itself is unbounded). -/
def collectLoop (block drain : Bool) (inUrl : String) (count : Nat)
    (trace : Nat → ReceiveResult) :
    Nat → Nat → List Event → List (String × Message) → LoopResult
  | 0, _, log, acc => .polling log acc
  | fuel + 1, calls, log, acc =>
    if acc.length < count then
      let log2 := log ++ [Event.receiveCall (mkReceiveRequest drain inUrl)]
      match trace calls with
      | .clientError => .aborted log2 (calls + 1)
      | .response msgsOpt =>
        let msgs := msgsOpt.getD []
        match insertAll acc msgs with
        | none => .aborted log2 (calls + 1)
        | some acc2 =>
          if block = false ∧ msgs.length = 0 then .finished log2 acc2 (calls + 1)
          else collectLoop block drain inUrl count trace fuel (calls + 1) log2 acc2
    else .finished log acc calls

/-- main.rs lines 88-99: the approximate-size query and the computation of
the collection target, entered only after the configuration check passed.
`userCount` is the (already parsed) value of `--count`; `none` models a
parse failure. -/
def sizePhase (inUrl : String) (outUrl : Option String) (sizeOf : String → Option Nat)
    (all block : Bool) (userCount : Option Nat) (calls : List Event) :
    List Event × Option (String × Option String × Nat) :=
  let calls2 := calls ++ [Event.getQueueSize inUrl]
  match sizeOf inUrl with
  | none => (calls2, none)
  | some total =>
    match (if all then some total else userCount) with
    | none => (calls2, none)
    | some user => (calls2, some (inUrl, outUrl, if block then user else min total user))

/-- main.rs lines 58-99: resolve the input queue url, resolve the output
queue url when one was given, check that at least one of `--stdout` and an
output queue is configured, then query the size and compute the target.
Returns the calls issued and, unless the program aborted, the input url,
optional output url, and target count. -/
def startup (stdout all block : Bool) (inQueue : String) (outQueue : Option String)
    (resolver : String → Option String) (sizeOf : String → Option Nat)
    (userCount : Option Nat) : List Event × Option (String × Option String × Nat) :=
  let calls := [Event.resolveUrl inQueue]
  match resolver inQueue with
  | none => (calls, none)
  | some inUrl =>
    match outQueue with
    | none =>
      if stdout then sizePhase inUrl none sizeOf all block userCount calls
      else (calls, none)
    | some name =>
      let calls2 := calls ++ [Event.resolveUrl name]
      match resolver name with
      | none => (calls2, none)
      | some outUrl => sizePhase inUrl (some outUrl) sizeOf all block userCount calls2

/-- main.rs lines 178-189 (`print_full_message`): the attributes default to
an empty map, while a missing body, receipt handle, body md5 or message id
aborts the run (`expect`). -/
def print_full_message (m : Message) : Option Output :=
  let attrs := m.attributes.getD []
  match m.body, m.receipt_handle, m.md5_of_body, m.message_id with
  | some b, some rh, some md5, some id => some (Output.fullRecord b rh md5 id attrs)
  | _, _, _, _ => none

/-- The fields of the rusoto `SendMessageResult` used by the program. -/
structure SendMessageResult where
  md5_of_message_body : Option String
  message_id : Option String
deriving DecidableEq, Repr

/-- main.rs lines 191-207 (`send_message`): issue the send and build the
acknowledgment record; a transport error or a missing response field aborts
the run. `sendApi` is the collaborator outcome of the remote call. -/
def send_message (sendApi : String → String → Option SendMessageResult)
    (url body : String) : Option Output :=
  match sendApi url body with
  | none => none
  | some r =>
    match r.md5_of_message_body, r.message_id with
    | some md5, some mid => some (Output.sendAck md5 mid)
    | _, _ => none

/-- main.rs lines 147-153: the drain step at the end of one disposition
iteration. A missing receipt handle aborts before the delete call is
issued; a failing delete call (`unwrap`) aborts after it. -/
def drainStep (drain : Bool) (inUrl : String) (deleteOk : String → String → Bool)
    (m : Message) (evs : List Event) : List Event × Bool :=
  if drain then
    match m.receipt_handle with
    | none => (evs, false)
    | some h => (evs ++ [Event.deleteCall inUrl h], deleteOk inUrl h)
  else (evs, true)

/-- main.rs lines 129-154, one iteration of the disposition loop: print the
body or the full record when `--stdout`, forward to the output queue when
one is configured (printing the acknowledgment), then drain. Returns the
events issued for this message and whether it completed without aborting. -/
def disposeMessage (stdout full drain : Bool) (outUrl : Option String) (inUrl : String)
    (sendApi : String → String → Option SendMessageResult)
    (deleteOk : String → String → Bool) (m : Message) : List Event × Bool :=
  match m.body with
  | none => ([], false)
  | some body =>
    match (if stdout then
             (if full then (print_full_message m).map (fun o => [Event.printLine o])
              else some [Event.printLine (Output.bodyLine body)])
           else some []) with
    | none => ([], false)
    | some evP =>
      match outUrl with
      | none => drainStep drain inUrl deleteOk m evP
      | some url =>
        let evs := evP ++ [Event.sendCall url body]
        match send_message sendApi url body with
        | none => (evs, false)
        | some ack => drainStep drain inUrl deleteOk m (evs ++ [Event.printLine ack])

/-- main.rs lines 129-154: the disposition loop over the collected map; an
abort while handling one message stops the whole run. -/
def disposeAll (stdout full drain : Bool) (outUrl : Option String) (inUrl : String)
    (sendApi : String → String → Option SendMessageResult)
    (deleteOk : String → String → Bool) :
    List (String × Message) → List Event × Bool
  | [] => ([], true)
  | (_, m) :: rest =>
    let r := disposeMessage stdout full drain outUrl inUrl sendApi deleteOk m
    if r.2 then
      let r2 := disposeAll stdout full drain outUrl inUrl sendApi deleteOk rest
      (r.1 ++ r2.1, r2.2)
    else (r.1, false)

/-- Overall outcome of a run of `main` (after argument parsing). -/
inductive RunOutcome where
  | ok
  | aborted
  | stillPolling
deriving DecidableEq, Repr

/-- The whole of `main` after argument parsing: startup (resolution,
configuration check, size query, target computation), the collection loop,
and the disposition loop. -/
def runMain (stdout all block drain full : Bool) (inQueue : String)
    (outQueue : Option String) (resolver : String → Option String)
    (sizeOf : String → Option Nat) (userCount : Option Nat)
    (trace : Nat → ReceiveResult)
    (sendApi : String → String → Option SendMessageResult)
    (deleteOk : String → String → Bool) (fuel : Nat) : List Event × RunOutcome :=
  match startup stdout all block inQueue outQueue resolver sizeOf userCount with
  | (evs, none) => (evs, .aborted)
  | (evs, some (inUrl, outUrl, count)) =>
    match collectLoop block drain inUrl count trace fuel 0 [] [] with
    | .polling levs _ => (evs ++ levs, .stillPolling)
    | .aborted levs _ => (evs ++ levs, .aborted)
    | .finished levs collected _ =>
      let d := disposeAll stdout full drain outUrl inUrl sendApi deleteOk collected
      (evs ++ levs ++ d.1, if d.2 then .ok else .aborted)

/-- `true` iff every delete call in the list is strictly preceded by a send
call (`seen` records whether a send call has already occurred). -/
def sendsBeforeDeletes : Bool → List Event → Bool
  | _, [] => true
  | seen, .deleteCall _ _ :: rest => seen && sendsBeforeDeletes seen rest
  | _, .sendCall _ _ :: rest => sendsBeforeDeletes true rest
  | seen, _ :: rest => sendsBeforeDeletes seen rest

/-! ## Claims about the startup phase (target resolution, error scoping) -/

/-- C1 counterexample: with a fixed `--count 5`, no `--block`, and an
approximate queue size of 0, the resolved target is 0, not the
user-specified 5 — the target is not independent of the queue size in
non-blocking mode. -/
theorem c1_counterexample :
    (startup true false false "q" none (fun _ => some "u") (fun _ => some 0)
      (some 5)).2 ≠ some ("u", none, 5) := by
  decide

/-- C1 (amended): in fixed-count mode the resolved target equals the
user-specified count N only when blocking is enabled; without `--block` the
target is `min approximateQueueSize N`. -/
theorem c1_fixed_count_target (q u : String) (total n : Nat) :
    startup true false true q none (fun _ => some u) (fun _ => some total) (some n)
      = ([Event.resolveUrl q, Event.getQueueSize u], some (u, none, n))
    ∧ startup true false false q none (fun _ => some u) (fun _ => some total) (some n)
      = ([Event.resolveUrl q, Event.getQueueSize u], some (u, none, min total n)) := by
  constructor <;> simp [startup, sizePhase]

/-- C4 counterexample: in fixed-count mode (`--count 3`, `--block`, not
`--all`) a failing approximate-size query aborts the run — the startup
returns no target at all, so the run does not proceed. -/
theorem c4_counterexample :
    (startup true false true "q" none (fun _ => some "u") (fun _ => none)
      (some 3)).2 = none := by
  decide

/-- C4 (amended): the approximate-size query is issued unconditionally
before target resolution, and its failure is fatal in every mode —
including fixed-count mode. -/
theorem c4_size_query_fatal (q u : String) (all block : Bool) (uc : Option Nat) :
    startup true all block q none (fun _ => some u) (fun _ => none) uc
      = ([Event.resolveUrl q, Event.getQueueSize u], none) := by
  simp [startup, sizePhase]

/-- C7 counterexample: with neither `--stdout` nor an output queue the run
does abort, but only after a queue interaction has been issued — the call
log of the failing run is not empty (it contains the resolution of the
input queue url). -/
theorem c7_counterexample :
    (startup false false false "q" none (fun _ => some "u") (fun _ => some 0)
      (some 1)).1 ≠ ([] : List Event) := by
  decide

/-- C7 (amended): when neither `--stdout` nor an output queue is given, the
run aborts after resolving the source queue url and before any other queue
interaction: the whole run's event log is exactly that one resolve call —
no size query, receive, send, delete, or print ever occurs. -/
theorem c7_config_error_after_resolve (all block drain full : Bool) (q : String)
    (resolver : String → Option String) (sizeOf : String → Option Nat)
    (uc : Option Nat) (trace : Nat → ReceiveResult)
    (sendApi : String → String → Option SendMessageResult)
    (deleteOk : String → String → Bool) (fuel : Nat) :
    runMain false all block drain full q none resolver sizeOf uc trace sendApi
      deleteOk fuel = ([Event.resolveUrl q], RunOutcome.aborted) := by
  cases h : resolver q <;> simp [runMain, startup, h]

/-- C8: target resolution in the remaining modes — `--all` yields the
approximate queue size in both blocking and non-blocking mode; the default
count 1 without `--block` yields `min approximateQueueSize 1` (hence 0 on
an empty queue); the default count 1 with `--block` yields 1 regardless of
the queue size. -/
theorem c8_target_resolution (q u : String) (total : Nat) (block : Bool)
    (uc : Option Nat) :
    startup true true block q none (fun _ => some u) (fun _ => some total) uc
      = ([Event.resolveUrl q, Event.getQueueSize u], some (u, none, total))
    ∧ startup true false false q none (fun _ => some u) (fun _ => some total) (some 1)
      = ([Event.resolveUrl q, Event.getQueueSize u], some (u, none, min total 1))
    ∧ startup true false false q none (fun _ => some u) (fun _ => some 0) (some 1)
      = ([Event.resolveUrl q, Event.getQueueSize u], some (u, none, 0))
    ∧ startup true false true q none (fun _ => some u) (fun _ => some total) (some 1)
      = ([Event.resolveUrl q, Event.getQueueSize u], some (u, none, 1)) := by
  refine ⟨?_, ?_, ?_, ?_⟩ <;> cases block <;> simp [startup, sizePhase]

/-! ## Claim about full-record output -/

/-- C10: `print_full_message` succeeds when body, receipt handle, body md5
and message id are all present, replacing absent attributes by an empty
mapping; a missing body, receipt handle, body md5, or message id makes it
abort. -/
theorem c10_full_record_fields (id b rh md5 : String)
    (attrs : List (String × String)) :
    print_full_message ⟨some id, some b, some rh, some md5, some attrs⟩
        = some (Output.fullRecord b rh md5 id attrs)
    ∧ print_full_message ⟨some id, some b, some rh, some md5, none⟩
        = some (Output.fullRecord b rh md5 id [])
    ∧ print_full_message ⟨some id, none, some rh, some md5, some attrs⟩ = none
    ∧ print_full_message ⟨some id, some b, none, some md5, some attrs⟩ = none
    ∧ print_full_message ⟨some id, some b, some rh, none, some attrs⟩ = none
    ∧ print_full_message ⟨none, some b, some rh, some md5, some attrs⟩ = none := by
  exact ⟨rfl, rfl, rfl, rfl, rfl, rfl⟩

/-! ## Claim about per-message disposition ordering -/

/-- C2: with forwarding and drain both enabled, every delete call issued
while disposing a message is strictly preceded by the send call, and when
the send fails for a message no delete call is issued for it at all. -/
theorem c2_send_before_delete (stdout full : Bool) (url inUrl : String)
    (sendApi : String → String → Option SendMessageResult)
    (deleteOk : String → String → Bool) (m : Message) :
    sendsBeforeDeletes false
        (disposeMessage stdout full true (some url) inUrl sendApi deleteOk m).1 = true
    ∧ ∀ b, m.body = some b → send_message sendApi url b = none →
        (disposeMessage stdout full true (some url) inUrl sendApi deleteOk m).1.all
          (fun e => !e.isDeleteCall) = true := by
  obtain ⟨mid, mbody, mrh, mmd5, mattrs⟩ := m
  cases mbody with
  | none =>
    refine ⟨by simp [disposeMessage, sendsBeforeDeletes], ?_⟩
    intro b hb
    exact absurd hb (by simp)
  | some body =>
    constructor
    · cases hs : send_message sendApi url body <;>
        cases mid <;> cases mrh <;> cases mmd5 <;> cases stdout <;> cases full <;>
        simp [disposeMessage, print_full_message, drainStep, sendsBeforeDeletes, hs]
    · intro b hb hsend
      have hb2 : body = b := by simpa using hb
      subst hb2
      cases mid <;> cases mrh <;> cases mmd5 <;> cases stdout <;> cases full <;>
        simp [disposeMessage, print_full_message, drainStep, hsend, Event.isDeleteCall]

/-- C2 witness: a concrete disposition with a failing send — ordering holds
and no delete call occurs. -/
theorem c2_send_before_delete_witness :
    sendsBeforeDeletes false
        (disposeMessage false false true (some "u") "q" (fun _ _ => none)
          (fun _ _ => true) ⟨some "i", some "b", some "r", some "m", none⟩).1 = true
    ∧ (disposeMessage false false true (some "u") "q" (fun _ _ => none)
          (fun _ _ => true) ⟨some "i", some "b", some "r", some "m", none⟩).1.all
        (fun e => !e.isDeleteCall) = true :=
  ⟨(c2_send_before_delete false false "u" "q" (fun _ _ => none) (fun _ _ => true)
      ⟨some "i", some "b", some "r", some "m", none⟩).1,
   (c2_send_before_delete false false "u" "q" (fun _ _ => none) (fun _ _ => true)
      ⟨some "i", some "b", some "r", some "m", none⟩).2 "b" rfl rfl⟩

/-! ## Claim about the receive requests issued by the collection loop -/

/-- Every event the collection loop adds to its log is the fixed receive
request built from `drain` and the input url. -/
theorem collectLoop_events_shape (block drain : Bool) (inUrl : String) (count : Nat)
    (trace : Nat → ReceiveResult) :
    ∀ fuel calls log acc, ∃ tail,
      (collectLoop block drain inUrl count trace fuel calls log acc).events
          = log ++ tail
      ∧ ∀ e ∈ tail, e = Event.receiveCall (mkReceiveRequest drain inUrl) := by
  intro fuel
  induction fuel with
  | zero =>
    intro calls log acc
    exact ⟨[], by simp [collectLoop, LoopResult.events], by simp⟩
  | succ fuel ih =>
    intro calls log acc
    rw [collectLoop]
    by_cases hlt : acc.length < count
    · simp only [hlt, if_true]
      cases trace calls with
      | clientError =>
        exact ⟨[Event.receiveCall (mkReceiveRequest drain inUrl)],
          by simp [LoopResult.events], by simp⟩
      | response msgsOpt =>
        cases hins : insertAll acc (msgsOpt.getD []) with
        | none =>
          exact ⟨[Event.receiveCall (mkReceiveRequest drain inUrl)],
            by simp [hins, LoopResult.events], by simp⟩
        | some acc2 =>
          by_cases hb : block = false ∧ msgsOpt.getD [] = []
          · exact ⟨[Event.receiveCall (mkReceiveRequest drain inUrl)],
              by simp [hins, hb, insertAll, LoopResult.events], by simp⟩
          · obtain ⟨tail, htl, hall⟩ := ih (calls + 1)
              (log ++ [Event.receiveCall (mkReceiveRequest drain inUrl)]) acc2
            refine ⟨Event.receiveCall (mkReceiveRequest drain inUrl) :: tail, ?_, ?_⟩
            · simp [hins, hb, htl]
            · intro e he
              rcases List.mem_cons.mp he with h | h
              · exact h
              · exact hall e h
    · exact ⟨[], by simp [hlt, LoopResult.events], by simp⟩

/-- C6: every receive call issued by the collection loop requests all
attributes, at most one message, and a visibility timeout equal to the
lease duration when draining and 0 otherwise (and targets the input
queue url). -/
theorem c6_receive_request_fields (block drain : Bool) (inUrl : String) (count : Nat)
    (trace : Nat → ReceiveResult) (fuel : Nat) (req : ReceiveMessageRequest)
    (h : Event.receiveCall req ∈
        (collectLoop block drain inUrl count trace fuel 0 [] []).events) :
    req.attribute_names = some ["All"] ∧ req.max_number_of_messages = some 1
    ∧ req.visibility_timeout = some (if drain then leaseSeconds else 0)
    ∧ req.queue_url = inUrl := by
  obtain ⟨tail, hev, hall⟩ :=
    collectLoop_events_shape block drain inUrl count trace fuel 0 [] []
  rw [hev, List.nil_append] at h
  have hreq := hall _ h
  have : req = mkReceiveRequest drain inUrl := by
    injection hreq
  subst this
  exact ⟨rfl, rfl, rfl, rfl⟩

/-- C6 witness: the request issued by a one-iteration concrete run has the
claimed fields. -/
theorem c6_receive_request_fields_witness :
    (mkReceiveRequest true "q").attribute_names = some ["All"]
    ∧ (mkReceiveRequest true "q").max_number_of_messages = some 1
    ∧ (mkReceiveRequest true "q").visibility_timeout
        = some (if true then leaseSeconds else 0)
    ∧ (mkReceiveRequest true "q").queue_url = "q" :=
  c6_receive_request_fields false true "q" 1 (fun _ => ReceiveResult.response (some []))
    1 (mkReceiveRequest true "q") (by decide)

/-! ## Claim about blocking-mode persistence -/

/-- C9: in blocking mode an empty receive response never terminates the
collection loop — against a queue that never yields a message the loop is
still polling after any number k of receive calls (for any positive
target), having issued exactly k receive calls. -/
theorem c9_blocking_never_terminates (drain : Bool) (inUrl : String) (count k : Nat)
    (hc : 1 ≤ count) :
    collectLoop true drain inUrl count (fun _ => ReceiveResult.response (some []))
        k 0 [] []
      = LoopResult.polling
          (List.replicate k (Event.receiveCall (mkReceiveRequest drain inUrl))) [] := by
  have aux : ∀ kk calls log,
      collectLoop true drain inUrl count (fun _ => ReceiveResult.response (some []))
          kk calls log []
        = LoopResult.polling
            (log ++ List.replicate kk (Event.receiveCall (mkReceiveRequest drain inUrl)))
            [] := by
    intro kk
    induction kk with
    | zero => intro calls log; simp [collectLoop]
    | succ kk ih =>
      intro calls log
      rw [collectLoop]
      have h0 : ([] : List (String × Message)).length < count := by simpa using hc
      simp only [h0, if_true, insertAll]
      rw [if_neg (by simp)]
      rw [ih]
      simp [List.replicate_succ]
  simpa using aux k 0 []

/-- C9 witness: a concrete blocking run against an always-empty queue is
still polling after 3 receive calls. -/
theorem c9_blocking_never_terminates_witness :
    collectLoop true false "q" 1 (fun _ => ReceiveResult.response (some [])) 3 0 [] []
      = LoopResult.polling
          (List.replicate 3 (Event.receiveCall (mkReceiveRequest false "q"))) [] :=
  c9_blocking_never_terminates false "q" 1 3 (by decide)

/-! ## Claim about deduplication -/

/-- C3: if n receive calls each deliver a message carrying the same
identity (and the queue then runs empty), the collected map at loop exit
has exactly one entry for that identity, holding the message of the last
(n-th) delivery — in particular its receipt handle is the last one. -/
theorem c3_dedup_last_delivery (drain : Bool) (inUrl id : String) (count n : Nat)
    (hn : 1 ≤ n) (hc : 2 ≤ count) (m : Nat → Message)
    (hid : ∀ i, (m i).message_id = some id) :
    collectLoop false drain inUrl count
        (fun i => if i < n then ReceiveResult.response (some [m i])
                  else ReceiveResult.response (some [])) (n + 1) 0 [] []
      = LoopResult.finished
          (List.replicate (n + 1) (Event.receiveCall (mkReceiveRequest drain inUrl)))
          [(id, m (n - 1))] (n + 1) := by
  have aux : ∀ d c, c + d = n → 1 ≤ c →
      collectLoop false drain inUrl count
          (fun i => if i < n then ReceiveResult.response (some [m i])
                    else ReceiveResult.response (some [])) (d + 1) c
          (List.replicate c (Event.receiveCall (mkReceiveRequest drain inUrl)))
          [(id, m (c - 1))]
        = LoopResult.finished
            (List.replicate (n + 1) (Event.receiveCall (mkReceiveRequest drain inUrl)))
            [(id, m (n - 1))] (n + 1) := by
    intro d
    induction d with
    | zero =>
      intro c hcn hc1
      have hcn' : c = n := by omega
      subst hcn'
      have h1 : 1 < count := by omega
      rw [collectLoop]
      simp [h1, insertAll, List.replicate_succ']
    | succ d ih =>
      intro c hcn hc1
      have hcltn : c < n := by omega
      have h1 : 1 < count := by omega
      have H := ih (c + 1) (by omega) (by omega)
      rw [show c + 1 - 1 = c from by omega] at H
      rw [collectLoop]
      simp [h1, hcltn, insertAll, hid c, mapInsert, List.replicate_succ']
      simpa [List.replicate_succ'] using H
  have h0 : 0 < count := by omega
  have h0n : 0 < n := by omega
  have H := aux (n - 1) 1 (by omega) (by omega)
  rw [show n - 1 + 1 = n from by omega] at H
  rw [collectLoop]
  simp [h0, h0n, insertAll, hid 0, mapInsert]
  simpa using H

/-- C3 witness: a concrete run delivering the same identity twice (with
receipt handles "0" then "1") then running empty collapses to one entry
holding the second delivery. -/
theorem c3_dedup_last_delivery_witness :
    collectLoop false false "q" 2
        (fun i => if i < 2 then
            ReceiveResult.response
              (some [⟨some "a", some "b", some (toString i), none, none⟩])
          else ReceiveResult.response (some [])) 3 0 [] []
      = LoopResult.finished
          (List.replicate 3 (Event.receiveCall (mkReceiveRequest false "q")))
          [("a", ⟨some "a", some "b", some (toString 1), none, none⟩)] 3 :=
  c3_dedup_last_delivery false "q" "a" 2 2 (by decide) (by decide)
    (fun i => ⟨some "a", some "b", some (toString i), none, none⟩) (fun i => rfl)

/-! ## Claim about non-blocking termination -/

/-- The queue trace of the termination property: a queue that yields its
messages one per receive call until exhausted, then always returns an empty
response. -/
def traceOf (msgs : List Message) : Nat → ReceiveResult :=
  fun i =>
    if h : i < msgs.length then ReceiveResult.response (some [msgs.get ⟨i, h⟩])
    else ReceiveResult.response (some [])

/-- The collected map after the first `c` messages of `msgs` have been
delivered, each keyed by its id. -/
def collectedOf (msgs : List Message) (c : Nat) : List (String × Message) :=
  (msgs.take c).map (fun x => (x.message_id.getD "", x))

theorem collectedOf_length (msgs : List Message) (c : Nat) (h : c ≤ msgs.length) :
    (collectedOf msgs c).length = c := by
  simp [collectedOf, List.length_take]
  omega

/-- The id of the next undelivered message does not occur among the keys
already collected (distinct ids). -/
theorem collectedOf_fresh (msgs : List Message) (c : Nat) (hc : c < msgs.length)
    (hids : ∀ x ∈ msgs, x.message_id.isSome = true)
    (hdist : ∀ i j (hi : i < msgs.length) (hj : j < msgs.length), i ≠ j →
      (msgs.get ⟨i, hi⟩).message_id ≠ (msgs.get ⟨j, hj⟩).message_id) :
    (collectedOf msgs c).any
        (fun p => p.1 == (msgs.get ⟨c, hc⟩).message_id.getD "") = false := by
  rw [List.any_eq_false]
  rintro ⟨s, x⟩ hp hbeq
  simp only [collectedOf, List.mem_map] at hp
  obtain ⟨y, hy, hxy⟩ := hp
  obtain ⟨i, hi, hyi⟩ := List.mem_take_iff_getElem.mp hy
  have hic : i < c := by omega
  have hil : i < msgs.length := by omega
  have hne : (msgs.get ⟨i, hil⟩).message_id ≠ (msgs.get ⟨c, hc⟩).message_id :=
    hdist i c hil hc (by omega)
  obtain ⟨a, ha⟩ :=
    Option.isSome_iff_exists.mp (hids (msgs.get ⟨i, hil⟩) (msgs.get_mem i hil))
  obtain ⟨b, hb⟩ :=
    Option.isSome_iff_exists.mp (hids (msgs.get ⟨c, hc⟩) (msgs.get_mem c hc))
  have hxyi : y = msgs.get ⟨i, hil⟩ := by
    rw [← hyi]; simp [List.get_eq_getElem, List.getElem_take]
  have hs : s = a := by
    have := congrArg Prod.fst hxy
    simp only at this
    rw [← this, hxyi, ha]
    rfl
  have hbeq2 : (s == (msgs.get ⟨c, hc⟩).message_id.getD "") = true := hbeq
  rw [hs, hb] at hbeq2
  have hab : a = b := by simpa using hbeq2
  rw [ha, hb, hab] at hne
  exact hne rfl

/-- Delivering the next undelivered message extends the collected map by
exactly one fresh entry. -/
theorem insertAll_step (msgs : List Message) (c : Nat) (hc : c < msgs.length)
    (hids : ∀ x ∈ msgs, x.message_id.isSome = true)
    (hdist : ∀ i j (hi : i < msgs.length) (hj : j < msgs.length), i ≠ j →
      (msgs.get ⟨i, hi⟩).message_id ≠ (msgs.get ⟨j, hj⟩).message_id) :
    insertAll (collectedOf msgs c) [msgs.get ⟨c, hc⟩]
      = some (collectedOf msgs (c + 1)) := by
  obtain ⟨b, hb⟩ :=
    Option.isSome_iff_exists.mp (hids (msgs.get ⟨c, hc⟩) (msgs.get_mem c hc))
  have hfresh := collectedOf_fresh msgs c hc hids hdist
  rw [hb] at hfresh
  simp only [Option.getD_some] at hfresh
  have hb2 : msgs[c].message_id = some b := hb
  have htake : collectedOf msgs (c + 1)
      = collectedOf msgs c ++ [(b, msgs.get ⟨c, hc⟩)] := by
    unfold collectedOf
    rw [List.take_succ, List.getElem?_eq_getElem hc]
    simp only [Option.toList_some, List.map_append, List.map_cons, List.map_nil,
      hb2, Option.getD_some]
    rfl
  have hfresh2 : ¬ ((collectedOf msgs c).any (fun p => p.1 == b) = true) := by
    simp [hfresh]
  simp only [insertAll, hb, mapInsert, if_neg hfresh2, htake]

/-- Running the non-blocking loop from a state where the first `c` messages
have been delivered: it finishes after `min count (msgs.length + 1)` total
receive calls with the first `min count msgs.length` messages collected. -/
theorem collectLoop_nonblocking_run (drain : Bool) (inUrl : String) (count : Nat)
    (msgs : List Message)
    (hids : ∀ x ∈ msgs, x.message_id.isSome = true)
    (hdist : ∀ i j (hi : i < msgs.length) (hj : j < msgs.length), i ≠ j →
      (msgs.get ⟨i, hi⟩).message_id ≠ (msgs.get ⟨j, hj⟩).message_id) :
    ∀ fuel c, c ≤ count → c ≤ msgs.length →
      min (count + 1) (msgs.length + 1) - c ≤ fuel →
      collectLoop false drain inUrl count (traceOf msgs) fuel c
          (List.replicate c (Event.receiveCall (mkReceiveRequest drain inUrl)))
          (collectedOf msgs c)
        = LoopResult.finished
            (List.replicate (min count (msgs.length + 1))
              (Event.receiveCall (mkReceiveRequest drain inUrl)))
            (collectedOf msgs (min count msgs.length))
            (min count (msgs.length + 1)) := by
  intro fuel
  induction fuel with
  | zero =>
    intro c hcc hcm hf
    exfalso
    omega
  | succ fuel ih =>
    intro c hcc hcm hf
    rw [collectLoop]
    rcases Nat.lt_or_ge c count with hlt | hge
    · have hlen : (collectedOf msgs c).length < count := by
        rw [collectedOf_length msgs c hcm]; exact hlt
      rcases Nat.lt_or_ge c msgs.length with hcm' | hcm2
      · have hstep := insertAll_step msgs c hcm' hids hdist
        have H := ih (c + 1) (by omega) (by omega) (by omega)
        simp only [hlen, if_true, traceOf, hcm', dif_pos, Option.getD_some]
        rw [hstep]
        simp only [List.length_singleton]
        rw [if_neg (by simp)]
        simpa [List.replicate_succ'] using H
      · have hceq : c = msgs.length := by omega
        subst hceq
        have h1 : min count (msgs.length + 1) = msgs.length + 1 := by omega
        have h2 : min count msgs.length = msgs.length := by omega
        simp only [hlen, if_true, traceOf, lt_self_iff_false, dif_neg,
          not_false_eq_true, Option.getD_some, insertAll]
        rw [if_pos (by simp)]
        rw [h1, h2, List.replicate_succ']
    · have hceq : c = count := by omega
      subst hceq
      have h1 : min c (msgs.length + 1) = c := by omega
      have h2 : min c msgs.length = c := by omega
      have hlen : ¬ (collectedOf msgs c).length < c := by
        rw [collectedOf_length msgs c hcm]; omega
      simp only [hlen, if_false, h1, h2]

/-- C5: against a queue that yields its (distinctly-identified) messages
until exhausted and then always answers empty, the non-blocking loop
terminates — fuel `target + 1` reaches a `finished` state — after
`min target (msgs.length + 1) ≤ target + 1` receive calls, having
collected the first `min target msgs.length` messages. -/
theorem c5_nonblocking_termination (drain : Bool) (inUrl : String) (count : Nat)
    (msgs : List Message)
    (hids : ∀ x ∈ msgs, x.message_id.isSome = true)
    (hdist : ∀ i j (hi : i < msgs.length) (hj : j < msgs.length), i ≠ j →
      (msgs.get ⟨i, hi⟩).message_id ≠ (msgs.get ⟨j, hj⟩).message_id) :
    collectLoop false drain inUrl count (traceOf msgs) (count + 1) 0 [] []
      = LoopResult.finished
          (List.replicate (min count (msgs.length + 1))
            (Event.receiveCall (mkReceiveRequest drain inUrl)))
          (collectedOf msgs (min count msgs.length))
          (min count (msgs.length + 1))
    ∧ min count (msgs.length + 1) ≤ count + 1 := by
  refine ⟨?_, by omega⟩
  have H := collectLoop_nonblocking_run drain inUrl count msgs hids hdist
    (count + 1) 0 (by omega) (by omega) (by omega)
  simpa using H

/-- C5 witness: a concrete non-blocking run with one available message and
target 1 finishes within 2 calls. -/
theorem c5_nonblocking_termination_witness :
    collectLoop false true "q" 1
        (traceOf [⟨some "a", some "b", some "r", none, none⟩]) 2 0 [] []
      = LoopResult.finished
          (List.replicate (min 1 2) (Event.receiveCall (mkReceiveRequest true "q")))
          (collectedOf [⟨some "a", some "b", some "r", none, none⟩] (min 1 1))
          (min 1 2)
    ∧ min 1 2 ≤ 2 :=
  c5_nonblocking_termination true "q" 1 [⟨some "a", some "b", some "r", none, none⟩]
    (by decide) (by intro i j hi hj hne; exact absurd (by simp at hi hj; omega) hne)
